import Mathlib

/-!
Verification of the SQLite file-format reader (`sqlite-ts`).

The definitions below are a shallow embedding of the TypeScript sources:
`helpers.ts` (varint codec, serial-type decoder, cell/record decoders) and
`DatabaseFileParser.ts` (file-header parser, page-header parser, cell-pointer
array reader, orchestrator).  Byte buffers (`Uint8Array` / `Buffer`) are
modelled as `List Nat` whose elements are byte values; JavaScript numbers are
modelled as `Nat` where the source only ever holds unsigned values and as
`Int` where a signed value can arise (the 32-bit `|`/`<<` arithmetic of
`readVarint`, signed big-endian reads, the right-most-pointer `- 1`).
A thrown JavaScript exception is modelled as `Option.none`.
-/

namespace SqliteTs

/-- `DataView.getUint8(i)`.  Every call site reads a buffer that was produced
by `getBufferFromOffset` with an exactly known length and an in-bounds index,
so the out-of-bounds default of `List.getD` is never exercised. -/
def getU8 (b : List Nat) (i : Nat) : Nat := b.getD i 0

/-- `DataView.getInt8(i)`: the byte reinterpreted as a signed 8-bit value. -/
def getI8 (b : List Nat) (i : Nat) : Int :=
  let v := getU8 b i
  if v < 128 then (v : Int) else (v : Int) - 256

/-- `DataView.getUint16(i)`: big-endian 16-bit read. -/
def getU16 (b : List Nat) (i : Nat) : Nat :=
  256 * getU8 b i + getU8 b (i + 1)

/-- `DataView.getUint32(i)`: big-endian 32-bit read. -/
def getU32 (b : List Nat) (i : Nat) : Nat :=
  2 ^ 24 * getU8 b i + 2 ^ 16 * getU8 b (i + 1) + 2 ^ 8 * getU8 b (i + 2) + getU8 b (i + 3)

/-- `DatabaseFileParser.getBufferFromOffset(bufferSize, offset)`:
`fileHandle.read` fills a freshly zero-allocated `Uint8Array(bufferSize)` with
however many bytes exist at `offset`; bytes past the end of the file remain
zero.  The result always has exactly `size` elements. -/
def getBufferFromOffset (file : List Nat) (size offset : Nat) : List Nat :=
  let r := (file.drop offset).take size
  r ++ List.replicate (size - r.length) 0

/-- The JavaScript int32 reinterpretation of a 32-bit pattern. -/
def toInt32 (n : Nat) : Int :=
  if n % 2 ^ 32 < 2 ^ 31 then ((n % 2 ^ 32 : Nat) : Int) else ((n % 2 ^ 32 : Nat) : Int) - 2 ^ 32

/-- The loop of `readVarint` (helpers.ts).  The source walks
`buffer[index]` for `index < buffer.length && index < 8`; the embedding
consumes the list while `index` tracks the original loop variable.  The
accumulator holds the unsigned 32-bit pattern of the JavaScript int32
`result`: `result |= (byte & 0x7f) << shift` coerces both operands to int32,
shifts by `shift & 31` and truncates to 32 bits, and the final signed
interpretation of the accumulated pattern is taken once at the end
(`Nat.lor` only ever adds bits, so the per-iteration int32 view and the final
one agree). -/
def readVarintGo : List Nat → Nat → Nat → Nat → Nat × Nat
  | [], index, _, result => (result, index + 1)
  | b :: rest, index, shift, result =>
    if index < 8 then
      let result2 := result ||| ((b % 128) * 2 ^ (shift % 32)) % 2 ^ 32
      if b < 128 then (result2, index + 1)
      else readVarintGo rest (index + 1) (shift + 7) result2
    else (result, index + 1)

/-- `readVarint(buffer)` from helpers.ts: returns `(value, nextOffset)`. -/
def readVarint (buffer : List Nat) : Int × Nat :=
  let r := readVarintGo buffer 0 0 0
  (toInt32 r.1, r.2)

/-- `getSerialTypeSize(serialType)` from helpers.ts. -/
def getSerialTypeSize (serialType : Int) : Int :=
  if serialType = 0 then 0
  else if serialType = 1 then 1
  else if serialType = 2 then 2
  else if serialType = 3 then 3
  else if serialType = 4 then 4
  else if serialType = 5 then 6
  else if serialType = 6 then 8
  else if serialType = 7 then 8
  else if serialType = 8 ∨ serialType = 9 then 0
  else if 12 ≤ serialType ∧ serialType % 2 = 0 then (serialType - 12) / 2
  else if 13 ≤ serialType ∧ serialType % 2 = 1 then (serialType - 13) / 2
  else 0

/-- `Buffer.toString("utf-8")`.  ASCII bytes decode exactly as in Node; a
byte with the high bit set starts a multi-byte UTF-8 sequence in Node, which
no claim exercises, so such bytes are mapped to U+FFFD here rather than
carrying a full UTF-8 state machine. -/
def utf8ToString (bytes : List Nat) : String :=
  (bytes.map fun b => if b < 128 then Char.ofNat b else Char.ofNat 0xFFFD).asString

/-- One lowercase hex digit. -/
def hexDigit (n : Nat) : Char :=
  if n < 10 then Char.ofNat (48 + n) else Char.ofNat (87 + n % 16)

/-- `Buffer.toString("hex")`: two lowercase hex digits per byte. -/
def hexToString (bytes : List Nat) : String :=
  (bytes.foldr (fun b acc => hexDigit (b % 256 / 16) :: hexDigit (b % 16) :: acc) []).asString

/-- `Buffer.readIntBE(0, w)` / `readInt8` / `readInt16BE` / `readInt32BE` /
`readBigInt64BE`: the first `w` bytes as a big-endian two's-complement
integer; Node throws `ERR_OUT_OF_RANGE` (here `none`) when fewer than `w`
bytes are available. -/
def readIntBE (bytes : List Nat) (w : Nat) : Option Int :=
  if w ≤ bytes.length then
    let u : Nat := (bytes.take w).foldl (fun acc b => acc * 256 + b % 256) 0
    some (if u < 2 ^ (8 * w - 1) then (u : Int) else (u : Int) - (2 : Int) ^ (8 * w))
  else none

/-- `Buffer.readDoubleBE(0).toString()`: in bounds iff at least 8 bytes are
available (else Node throws, here `none`).  JavaScript's shortest-round-trip
rendering of the decoded IEEE-754 double is not modelled bit-exactly; no
claim exercises serial type 7, so the rendered text is abstracted as a tagged
decimal of the raw 64 bits. -/
def readDoubleBEString (bytes : List Nat) : Option String :=
  if 8 ≤ bytes.length then
    some ("ieee754:" ++ toString ((bytes.take 8).foldl (fun acc b => acc * 256 + b % 256) (0 : Nat)))
  else none

/-- `parseSerialTypeValue(buffer, targetSerialType, id)` from helpers.ts.
`none` models a thrown `ERR_OUT_OF_RANGE` from a fixed-width read on a
too-short buffer. -/
def parseSerialTypeValue (buffer : List Nat) (targetSerialType : Int) (id : Int) :
    Option String :=
  if 13 ≤ targetSerialType ∧ targetSerialType % 2 = 1 then some (utf8ToString buffer)
  else if 12 ≤ targetSerialType ∧ targetSerialType % 2 = 0 then some (hexToString buffer)
  else if targetSerialType = 1 then (readIntBE buffer 1).map toString
  else if targetSerialType = 2 then (readIntBE buffer 2).map toString
  else if targetSerialType = 3 then (readIntBE buffer 3).map toString
  else if targetSerialType = 4 then (readIntBE buffer 4).map toString
  else if targetSerialType = 5 then (readIntBE buffer 6).map toString
  else if targetSerialType = 6 then (readIntBE buffer 8).map toString
  else if targetSerialType = 7 then readDoubleBEString buffer
  else if targetSerialType = 8 ∨ targetSerialType = 9 then some "0"
  else some (toString id)

/-- The header-region loop of `parseCellPayload`
(`while (headerRemainingBytes > 0) { ... }`), written with an explicit
iteration budget `fuel`.  Each iteration reads a serial-type varint at
`offset` and subtracts its consumed-byte count from `remaining`.  Because
`readVarint` always reports at least one consumed byte, `remaining.toNat`
iterations always suffice, so the budget never cuts the loop short (theorem
`readSerialTypesF_stable`); the fuel-free wrapper `readSerialTypes` fixes
`fuel := remaining.toNat`. -/
def readSerialTypesF : Nat → List Nat → Nat → Int → List Int × Nat
  | 0, _, offset, _ => ([], offset)
  | fuel + 1, buffer, offset, remaining =>
    if 0 < remaining then
      let r := readVarint (buffer.drop offset)
      let rest := readSerialTypesF fuel buffer (offset + r.2) (remaining - (r.2 : Int))
      (r.1 :: rest.1, rest.2)
    else ([], offset)

/-- The header-region loop of `parseCellPayload`, fuel instantiated to the
provably sufficient `remaining.toNat`. -/
def readSerialTypes (buffer : List Nat) (offset : Nat) (remaining : Int) : List Int × Nat :=
  readSerialTypesF remaining.toNat buffer offset remaining

/-- The value loop of `parseCellPayload`: for each serial type in order,
slice `columnSize` bytes (`buffer.subarray(offset, offset + columnSize)`),
decode them, and advance the offset (`getSerialTypeSize` is non-negative on
every branch, see `getSerialTypeSize_nonneg`, so `Int.toNat` is exact).
`none` propagates a thrown `ERR_OUT_OF_RANGE` from a fixed-width read. -/
def readColumns (buffer : List Nat) (rowId : Int) : List Int → Nat → Option (List String)
  | [], _ => some []
  | st :: rest, offset =>
    (parseSerialTypeValue ((buffer.drop offset).take (getSerialTypeSize st).toNat) st rowId).bind
      fun v =>
        (readColumns buffer rowId rest (offset + (getSerialTypeSize st).toNat)).map
          fun l => v :: l

/-- `parseCellPayload(buffer, offset, rowId)` from helpers.ts. -/
def parseCellPayload (buffer : List Nat) (offset : Nat) (rowId : Int) :
    Option (List String) :=
  let rh := readVarint (buffer.drop offset)
  let offset1 := offset + rh.2
  let sts := readSerialTypes buffer offset1 (rh.1 - (rh.2 : Int))
  readColumns buffer rowId sts.1 sts.2

/-- `parseTableLeafCell(buffer)` from helpers.ts: payload-size varint (value
unused), row-id varint, then the record. -/
def parseTableLeafCell (buffer : List Nat) : Option (List String) :=
  let r1 := readVarint buffer
  let r2 := readVarint (buffer.drop r1.2)
  parseCellPayload buffer (r1.2 + r2.2) r2.1

/-- `parseIndexLeafCell(buffer)` from helpers.ts: payload-size varint, then a
record destructured into its first two values (a missing position is
JavaScript `undefined`, here `Option.none`).  `parseCellPayload` is called
without a row id, so the source's default `-99999` applies. -/
def parseIndexLeafCell (buffer : List Nat) : Option (Option String × Option String) :=
  let r1 := readVarint buffer
  (parseCellPayload buffer r1.2 (-99999)).map fun l => (l.get? 0, l.get? 1)

/-- `DatabaseFileHeader` (DatabaseFileParser.ts); field names are the
camel-cased versions of the source's quoted keys. -/
structure DatabaseFileHeader where
  headerString : String
  databasePageSize : Nat
  fileFormatWriteVersion : Nat
  fileFormatReadVersion : Nat
  reservedSpaceAtEndOfEachPage : Nat
  maximumEmbeddedPayloadFraction : Nat
  minimumEmbeddedPayloadFraction : Nat
  leafPayloadFraction : Nat
  fileChangeCounter : Nat
  numberOfPages : Nat
  firstFreeListTrunkPage : Nat
  totalFreeListPages : Nat
  schemaCookie : Nat
  schemaFormatNumber : Nat
  defaultPageCacheSize : Nat
  largestRootBTreePageNumber : Nat
  databaseTextEncoding : Nat
  userVersion : Nat
  incrementalVacuumMode : Nat
  applicationID : Nat
  reservedForExpansion : List Nat
  versionValidForNumber : Nat
  sqliteVersionNumber : Nat
deriving DecidableEq

/-- `BTreePageHeaderInfo` (DatabaseFileParser.ts). -/
structure BTreePageHeaderInfo where
  numberOfTables : Nat
  bTreePageType : Nat
  startOfFirstFreeBlock : Nat
  numberOfCells : Nat
  startOfCellContentArea : Nat
  numberOfFragmentedFreeBytes : Nat
  rightMostPointer : Int
  headerSize : Nat
deriving DecidableEq

/-- `DatabaseInfo` (DatabaseFileParser.ts).  `getTableNames` pushes
`parseTableLeafCell(...)[2]`, and indexing past the end of a JavaScript
array yields `undefined`, so a table name is an `Option String`. -/
structure DatabaseInfo where
  pageSize : Nat
  pageCount : Nat
  numberOfTables : Nat
  tableNames : List (Option String)
deriving DecidableEq

/-- The field extraction of `parseDatabaseFileHeader` from its 100-byte
buffer.  `String.fromCharCode` maps each byte to the character with that
code, which `Char.ofNat` reproduces exactly for byte values. -/
def headerFromBuffer (b : List Nat) : DatabaseFileHeader where
  headerString := ((b.take 16).map Char.ofNat).asString
  databasePageSize := getU16 b 16
  fileFormatWriteVersion := getU8 b 18
  fileFormatReadVersion := getU8 b 19
  reservedSpaceAtEndOfEachPage := getU8 b 20
  maximumEmbeddedPayloadFraction := getU8 b 21
  minimumEmbeddedPayloadFraction := getU8 b 22
  leafPayloadFraction := getU8 b 23
  fileChangeCounter := getU32 b 24
  numberOfPages := getU32 b 28
  firstFreeListTrunkPage := getU32 b 32
  totalFreeListPages := getU32 b 36
  schemaCookie := getU32 b 40
  schemaFormatNumber := getU32 b 44
  defaultPageCacheSize := getU32 b 48
  largestRootBTreePageNumber := getU32 b 52
  databaseTextEncoding := getU32 b 56
  userVersion := getU32 b 60
  incrementalVacuumMode := getU32 b 64
  applicationID := getU32 b 68
  reservedForExpansion := (b.drop 72).take 20
  versionValidForNumber := getU32 b 92
  sqliteVersionNumber := getU32 b 96

/-- `DatabaseFileParser.parseDatabaseFileHeader()`: reads `maxByteSize = 100`
bytes at offset 0 and extracts the fixed-layout fields. -/
def parseDatabaseFileHeader (file : List Nat) : DatabaseFileHeader :=
  headerFromBuffer (getBufferFromOffset file 100 0)

/-- `DatabaseFileParser.parsePageHeader(offset)`: reads 12 bytes at `offset`.
The header-size condition is embedded exactly as written in the source:
`getUint8(0) === 13 || getInt8(8) === 10` — the second disjunct reads the
signed byte at offset 8, not the page-type byte.  The right-most pointer is
`getUint32(8) - 1`. -/
def parsePageHeader (file : List Nat) (offset : Nat) : BTreePageHeaderInfo :=
  let b := getBufferFromOffset file 12 offset
  { numberOfTables := getU16 b 3
    bTreePageType := getU8 b 0
    startOfFirstFreeBlock := getU16 b 1
    numberOfCells := getU16 b 3
    startOfCellContentArea := getU16 b 5
    numberOfFragmentedFreeBytes := getU8 b 7
    rightMostPointer := (getU32 b 8 : Int) - 1
    headerSize := if getU8 b 0 = 13 ∨ getI8 b 8 = 10 then 8 else 12 }

/-- `DatabaseFileParser.getCellPointerArray(offset)`: re-parses the page
header, then reads `cellCount` big-endian u16 offsets immediately after it.
The source throws a `RangeError` (here `none`) when `c * 2 + 2` exceeds the
pointer buffer's length; since that buffer always holds exactly
`cellCount * 2` bytes, the guard never fires. -/
def getCellPointerArray (file : List Nat) (offset : Nat) : Option (List Nat) :=
  let ph := parsePageHeader file offset
  let pointerBuffer := getBufferFromOffset file (ph.numberOfCells * 2) (offset + ph.headerSize)
  (List.range ph.numberOfCells).mapM fun c =>
    if c * 2 + 2 ≤ pointerBuffer.length then some (getU16 pointerBuffer (c * 2)) else none

/-- `PageCellData.schemaTableName = 2`: the record column index that
`getTableNames` extracts from each decoded cell. -/
def schemaTableName : Nat := 2

/-- `DatabaseFileParser.parse()`: file header, root-page header at
`maxByteSize = 100`, cell-pointer array, full first page
(`database page size` bytes at offset 0), then one table-name entry per cell
pointer via `parseTableLeafCell(pageBuffer.subarray(cellPointer))[2]`.
`none` models a thrown exception aborting `parse`. -/
def parse (file : List Nat) : Option DatabaseInfo := do
  let databaseFileHeader := parseDatabaseFileHeader file
  let databasePageHeader := parsePageHeader file 100
  let cellPointersArray ← getCellPointerArray file 100
  let pageBuffer := getBufferFromOffset file databaseFileHeader.databasePageSize 0
  let tableNames ← cellPointersArray.mapM fun cellPointer =>
    (parseTableLeafCell (pageBuffer.drop cellPointer)).map fun r => r.get? schemaTableName
  pure
    { pageSize := databaseFileHeader.databasePageSize
      pageCount := databaseFileHeader.numberOfPages
      numberOfTables := databasePageHeader.numberOfTables
      tableNames := tableNames }

/-- The little-endian 7-bit groups of `v` (least-significant group first),
with an explicit recursion budget that only needs to cover the group count;
`fuel := v` always suffices since `v / 128 < v` for `v ≥ 128`. -/
def varintGroupsLEF : Nat → Nat → List Nat
  | 0, v => [v % 128]
  | fuel + 1, v => if v < 128 then [v] else v % 128 :: varintGroupsLEF fuel (v / 128)

/-- Sets the continuation (high) bit on every group except the final one. -/
def withContinuations : List Nat → List Nat
  | [] => []
  | [g] => [g]
  | g :: h :: t => (g + 128) :: withContinuations (h :: t)

/-- A 7-bits-per-byte varint encoding with the least-significant group first
(the byte order that `readVarint`'s increasing shift accumulates).  This is
the encoder under which the decoder round-trips; it is not the canonical
SQLite byte order. -/
def encodeVarintLE (v : Nat) : List Nat := withContinuations (varintGroupsLEF v v)

/-- Follows the spec's words (claim C2): the canonical SQLite
7-bits-per-byte varint grouping puts the MOST significant 7-bit group first
(fileformat.html: "A variable-length integer ... the twos-complement value
is built up from the lower seven bits of each byte, most significant byte
first").  Each byte except the last carries a continuation bit. -/
def encodeVarintCanonical (v : Nat) : List Nat :=
  withContinuations (varintGroupsLEF v v).reverse

/-- The synthetic database file of claim C1: a 100-byte header declaring
page size 4096 (u16 at 16) and page count 1 (u32 at 28); at offset 100 a
leaf-table b-tree page header (type 13, 2 cells, cell-content start 112);
at 108 the cell-pointer array `[112, 118]`; at 112 and 118 two table-leaf
cells, each `payloadSize=4, rowId, record header {size 2, serial type 17}`
followed by the two TEXT bytes `"t1"` resp. `"t2"`. -/
def syntheticDatabaseFile : List Nat :=
  [83, 81, 76, 105, 116, 101, 32, 102, 111, 114, 109, 97, 116, 32, 51, 0] ++
  [16, 0] ++ List.replicate 10 0 ++ [0, 0, 0, 1] ++ List.replicate 68 0 ++
  [13, 0, 0, 0, 2, 0, 112, 0] ++
  [0, 112, 0, 118] ++
  [4, 1, 2, 17, 116, 49] ++
  [4, 2, 2, 17, 116, 50]

/-- The synthetic database file of claim C9: header declares page size 512
and page count 1; the root page is a leaf-table page with 1 cell whose cell
pointer (at offset 108) is 1000, far beyond the 512-byte page buffer. -/
def outOfBoundsPointerFile : List Nat :=
  [83, 81, 76, 105, 116, 101, 32, 102, 111, 114, 109, 97, 116, 32, 51, 0] ++
  [2, 0] ++ List.replicate 10 0 ++ [0, 0, 0, 1] ++ List.replicate 68 0 ++
  [13, 0, 0, 0, 1, 0, 0, 0] ++
  [3, 232]

theorem getBufferFromOffset_length (file : List Nat) (size offset : Nat) :
    (getBufferFromOffset file size offset).length = size := by
  simp only [getBufferFromOffset, List.length_append, List.length_replicate, List.length_take]
  omega

theorem getSerialTypeSize_even (s : Int) (h12 : 12 ≤ s) (he : s % 2 = 0) :
    getSerialTypeSize s = (s - 12) / 2 := by
  unfold getSerialTypeSize
  rw [if_neg (show ¬s = 0 by omega), if_neg (show ¬s = 1 by omega),
    if_neg (show ¬s = 2 by omega), if_neg (show ¬s = 3 by omega),
    if_neg (show ¬s = 4 by omega), if_neg (show ¬s = 5 by omega),
    if_neg (show ¬s = 6 by omega), if_neg (show ¬s = 7 by omega),
    if_neg (show ¬(s = 8 ∨ s = 9) by omega), if_pos ⟨h12, he⟩]

theorem getSerialTypeSize_odd (s : Int) (h13 : 13 ≤ s) (ho : s % 2 = 1) :
    getSerialTypeSize s = (s - 13) / 2 := by
  unfold getSerialTypeSize
  rw [if_neg (show ¬s = 0 by omega), if_neg (show ¬s = 1 by omega),
    if_neg (show ¬s = 2 by omega), if_neg (show ¬s = 3 by omega),
    if_neg (show ¬s = 4 by omega), if_neg (show ¬s = 5 by omega),
    if_neg (show ¬s = 6 by omega), if_neg (show ¬s = 7 by omega),
    if_neg (show ¬(s = 8 ∨ s = 9) by omega),
    if_neg (show ¬(12 ≤ s ∧ s % 2 = 0) by omega), if_pos ⟨h13, ho⟩]

theorem getSerialTypeSize_other (s : Int) (h0 : ¬s = 0) (h1 : ¬s = 1) (h2 : ¬s = 2)
    (h3 : ¬s = 3) (h4 : ¬s = 4) (h5 : ¬s = 5) (h6 : ¬s = 6) (h7 : ¬s = 7)
    (h89 : ¬(s = 8 ∨ s = 9)) (hev : ¬(12 ≤ s ∧ s % 2 = 0))
    (hod : ¬(13 ≤ s ∧ s % 2 = 1)) : getSerialTypeSize s = 0 := by
  unfold getSerialTypeSize
  rw [if_neg h0, if_neg h1, if_neg h2, if_neg h3, if_neg h4, if_neg h5, if_neg h6,
    if_neg h7, if_neg h89, if_neg hev, if_neg hod]

/-- Every branch of `getSerialTypeSize` yields a non-negative count, which
justifies modelling the JavaScript `offset += columnSize` with `Nat`
arithmetic via `Int.toNat` in `readColumns`. -/
theorem getSerialTypeSize_nonneg (s : Int) : 0 ≤ getSerialTypeSize s := by
  by_cases hev : 12 ≤ s ∧ s % 2 = 0
  · rw [getSerialTypeSize_even s hev.1 hev.2]
    exact Int.ediv_nonneg (by omega) (by norm_num)
  by_cases hod : 13 ≤ s ∧ s % 2 = 1
  · rw [getSerialTypeSize_odd s hod.1 hod.2]
    exact Int.ediv_nonneg (by omega) (by norm_num)
  by_cases h0 : s = 0
  · subst h0; decide
  by_cases h1 : s = 1
  · subst h1; decide
  by_cases h2 : s = 2
  · subst h2; decide
  by_cases h3 : s = 3
  · subst h3; decide
  by_cases h4 : s = 4
  · subst h4; decide
  by_cases h5 : s = 5
  · subst h5; decide
  by_cases h6 : s = 6
  · subst h6; decide
  by_cases h7 : s = 7
  · subst h7; decide
  by_cases h89 : s = 8 ∨ s = 9
  · rcases h89 with h | h
    · subst h; decide
    · subst h; decide
  rw [getSerialTypeSize_other s h0 h1 h2 h3 h4 h5 h6 h7 h89 hev hod]

theorem lor_mul_two_pow {a b k : Nat} (h : a < 2 ^ k) :
    a ||| b * 2 ^ k = a + b * 2 ^ k := by
  apply Nat.eq_of_testBit_eq
  intro j
  rw [Nat.testBit_lor, show a + b * 2 ^ k = 2 ^ k * b + a by ring,
    Nat.testBit_mul_pow_two_add b h j]
  rcases Nat.lt_or_ge j k with hj | hj
  · have hbk : (b * 2 ^ k).testBit j = false := by
      rw [show b * 2 ^ k = 2 ^ k * b by ring, Nat.testBit_mul_pow_two]
      simp [Nat.not_le.mpr hj]
    rw [if_pos hj, hbk, Bool.or_false]
  · have ha : a.testBit j = false :=
      Nat.testBit_eq_false_of_lt (lt_of_lt_of_le h (Nat.pow_le_pow_right (by norm_num) hj))
    rw [if_neg (Nat.not_lt.mpr hj), ha, Bool.false_or,
      show b * 2 ^ k = 2 ^ k * b by ring, Nat.testBit_mul_pow_two]
    simp [hj]

theorem varintGroupsLEF_ne_nil (fuel v : Nat) : varintGroupsLEF fuel v ≠ [] := by
  cases fuel with
  | zero => simp [varintGroupsLEF]
  | succ m =>
    unfold varintGroupsLEF
    split <;> simp

theorem varintGroupsLEF_succ_large (m v : Nat) (h : ¬v < 128) :
    varintGroupsLEF (m + 1) v = v % 128 :: varintGroupsLEF m (v / 128) := by
  rw [varintGroupsLEF.eq_2, if_neg h]

/-- Decoding an LSB-first varint encoding from any loop state whose bits lie
strictly below the current shift adds the encoded value at that shift.  The
hypotheses keep all arithmetic inside the int32 window: a value below
`2 ^ 28` occupies at most four 7-bit groups, so every shift used is at most
21 and no 32-bit truncation occurs. -/
theorem readVarintGo_encodeLE (fuel : Nat) :
    ∀ (v acc index : Nat), v ≤ fuel → index ≤ 3 → v < 2 ^ (7 * (4 - index)) →
    acc < 2 ^ (7 * index) →
    readVarintGo (withContinuations (varintGroupsLEF fuel v)) index (7 * index) acc
      = (acc + v * 2 ^ (7 * index),
         index + (withContinuations (varintGroupsLEF fuel v)).length) := by
  induction fuel with
  | zero =>
    intro v acc index hfv hidx hv hacc
    have hv0 : v = 0 := by omega
    subst hv0
    have hsh : 7 * index % 32 = 7 * index := Nat.mod_eq_of_lt (by omega)
    simp only [varintGroupsLEF, Nat.zero_mod, withContinuations, readVarintGo,
      if_pos (by omega : index < 8), hsh]
    rw [if_pos (by omega : (0 : Nat) < 128)]
    simp
  | succ m ih =>
    intro v acc index hfv hidx hv hacc
    by_cases hsmall : v < 128
    · have hsh : 7 * index % 32 = 7 * index := Nat.mod_eq_of_lt (by omega)
      have hvm : v % 128 = v := Nat.mod_eq_of_lt hsmall
      have hfit : v * 2 ^ (7 * index) < 2 ^ 32 := by
        calc v * 2 ^ (7 * index) < 2 ^ 7 * 2 ^ (7 * index) :=
              Nat.mul_lt_mul_of_lt_of_le hsmall le_rfl (Nat.pos_pow_of_pos _ (by norm_num))
          _ = 2 ^ (7 + 7 * index) := by rw [← pow_add]
          _ ≤ 2 ^ 32 := Nat.pow_le_pow_right (by norm_num) (by omega)
      simp only [varintGroupsLEF, if_pos hsmall, withContinuations, readVarintGo,
        if_pos (by omega : index < 8), hsh, hvm]
      rw [Nat.mod_eq_of_lt hfit, lor_mul_two_pow hacc]
      simp
    · rcases List.exists_cons_of_ne_nil (varintGroupsLEF_ne_nil m (v / 128)) with ⟨g, t, hgt⟩
      have hidx2 : index ≤ 2 := by
        rcases Nat.lt_or_ge index 3 with h3 | h3
        · omega
        · exfalso
          have h3' : index = 3 := by omega
          subst h3'
          simp only [show 7 * (4 - 3) = 7 by norm_num] at hv
          omega
      have hsh : 7 * index % 32 = 7 * index := Nat.mod_eq_of_lt (by omega)
      have hmod : (v % 128 + 128) % 128 = v % 128 := by omega
      have hm127 : v % 128 ≤ 127 := by omega
      have hfit : v % 128 * 2 ^ (7 * index) < 2 ^ 32 := by
        calc v % 128 * 2 ^ (7 * index) < 2 ^ 7 * 2 ^ (7 * index) :=
              Nat.mul_lt_mul_of_lt_of_le (by omega) le_rfl (Nat.pos_pow_of_pos _ (by norm_num))
          _ = 2 ^ (7 + 7 * index) := by rw [← pow_add]
          _ ≤ 2 ^ 32 := Nat.pow_le_pow_right (by norm_num) (by omega)
      have hacc2 : acc + v % 128 * 2 ^ (7 * index) < 2 ^ (7 * (index + 1)) := by
        have hmul := Nat.mul_le_mul_right (2 ^ (7 * index)) hm127
        have hpow : (2 : Nat) ^ (7 * (index + 1)) = 2 ^ 7 * 2 ^ (7 * index) := by
          rw [← pow_add]
          congr 1
          ring
        have hlt : acc + v % 128 * 2 ^ (7 * index)
            < 2 ^ (7 * index) + 127 * 2 ^ (7 * index) := by
          omega
        rw [hpow]
        have h128 : (2 : Nat) ^ 7 = 128 := by norm_num
        omega
      have hdiv : v / 128 < 2 ^ (7 * (4 - (index + 1))) := by
        have h128 : (0 : Nat) < 128 := by norm_num
        rw [Nat.div_lt_iff_lt_mul h128]
        calc v < 2 ^ (7 * (4 - index)) := hv
          _ = 2 ^ (7 * (4 - (index + 1))) * 128 := by
            rw [show (128 : Nat) = 2 ^ 7 by norm_num, ← pow_add]
            congr 1
            omega
      have hstep :
          readVarintGo (withContinuations (varintGroupsLEF (m + 1) v)) index (7 * index) acc
            = readVarintGo (withContinuations (varintGroupsLEF m (v / 128))) (index + 1)
                (7 * index + 7) (acc + v % 128 * 2 ^ (7 * index)) := by
        rw [varintGroupsLEF_succ_large m v hsmall, hgt]
        simp only [withContinuations, readVarintGo, if_pos (by omega : index < 8), hsh, hmod]
        rw [if_neg (by omega : ¬v % 128 + 128 < 128), Nat.mod_eq_of_lt hfit,
          lor_mul_two_pow hacc]
      rw [hstep, show 7 * index + 7 = 7 * (index + 1) by ring]
      rw [ih (v / 128) (acc + v % 128 * 2 ^ (7 * index)) (index + 1)
        (by omega : v / 128 ≤ m) (by omega) hdiv hacc2]
      rw [Prod.mk.injEq]
      refine ⟨?_, ?_⟩
      · have hmd : v % 128 + 128 * (v / 128) = v := Nat.mod_add_div v 128
        have hsplit : (2 : Nat) ^ (7 * (index + 1)) = 2 ^ (7 * index) * 128 := by
          rw [show (128 : Nat) = 2 ^ 7 by norm_num, ← pow_add]
          congr 1
        have key : v % 128 * 2 ^ (7 * index) + v / 128 * (2 ^ (7 * index) * 128)
            = v * 2 ^ (7 * index) := by
          calc v % 128 * 2 ^ (7 * index) + v / 128 * (2 ^ (7 * index) * 128)
              = (v % 128 + 128 * (v / 128)) * 2 ^ (7 * index) := by ring
            _ = v * 2 ^ (7 * index) := by rw [hmd]
        rw [hsplit]
        linarith [key]
      · rw [varintGroupsLEF_succ_large m v hsmall, hgt]
        simp only [withContinuations, List.length_cons]
        omega

theorem readVarintGo_snd_ge (l : List Nat) :
    ∀ (index shift acc : Nat), index + 1 ≤ (readVarintGo l index shift acc).2 := by
  induction l with
  | nil => intro index shift acc; simp [readVarintGo]
  | cons b rest ih =>
    intro index shift acc
    simp only [readVarintGo]
    split
    · split
      · simp
      · exact le_trans (by omega) (ih (index + 1) (shift + 7) _)
    · simp

theorem readVarintGo_snd_le_nine (l : List Nat) :
    ∀ (index shift acc : Nat), index ≤ 8 → (readVarintGo l index shift acc).2 ≤ 9 := by
  induction l with
  | nil => intro index shift acc h; simp [readVarintGo]; omega
  | cons b rest ih =>
    intro index shift acc h
    simp only [readVarintGo]
    split
    · split
      · simp; omega
      · exact ih (index + 1) (shift + 7) _ (by omega)
    · simp; omega

theorem readVarintGo_snd_le_len (l : List Nat) :
    ∀ (index shift acc : Nat), (readVarintGo l index shift acc).2 ≤ index + l.length + 1 := by
  induction l with
  | nil => intro index shift acc; simp [readVarintGo]
  | cons b rest ih =>
    intro index shift acc
    simp only [readVarintGo, List.length_cons]
    split
    · split
      · simp
      · exact le_trans (ih (index + 1) (shift + 7) _) (by omega)
    · simp

/-- The loop of `readVarint` never looks past the first 8 bytes: running it
on `l.take n` for any `n` covering the remaining iteration budget is the
same as running it on `l`. -/
theorem readVarintGo_take (l : List Nat) :
    ∀ (n index shift acc : Nat), 8 - index ≤ n →
    readVarintGo (l.take n) index shift acc = readVarintGo l index shift acc := by
  induction l with
  | nil => intro n index shift acc h; simp
  | cons b rest ih =>
    intro n index shift acc h
    cases n with
    | zero =>
      have hidx : ¬index < 8 := by omega
      simp only [List.take_zero, readVarintGo, if_neg hidx]
    | succ m =>
      simp only [List.take_succ_cons, readVarintGo]
      split
      · split
        · rfl
        · exact ih m (index + 1) (shift + 7) _ (by omega)
      · rfl

theorem readVarint_nextOffset_pos (l : List Nat) : 1 ≤ (readVarint l).2 :=
  readVarintGo_snd_ge l 0 0 0

theorem readVarint_nextOffset_le_nine (l : List Nat) : (readVarint l).2 ≤ 9 :=
  readVarintGo_snd_le_nine l 0 0 0 (by omega)

theorem readVarint_nextOffset_le_len (l : List Nat) : (readVarint l).2 ≤ l.length + 1 := by
  have h := readVarintGo_snd_le_len l 0 0 0
  simpa [readVarint] using h

theorem readVarint_take_eight (l l' : List Nat) (h : l.take 8 = l'.take 8) :
    readVarint l = readVarint l' := by
  unfold readVarint
  rw [← readVarintGo_take l 8 0 0 0 (by omega), ← readVarintGo_take l' 8 0 0 0 (by omega), h]

/-- Any two iteration budgets that cover `remaining.toNat` steps drive the
header-region loop to the same result: the loop terminates because every
varint consumes at least one byte of the remaining header budget. -/
theorem readSerialTypesF_congr (f : Nat) :
    ∀ (f' : Nat) (buffer : List Nat) (offset : Nat) (remaining : Int),
    remaining.toNat ≤ f → remaining.toNat ≤ f' →
    readSerialTypesF f buffer offset remaining = readSerialTypesF f' buffer offset remaining := by
  induction f with
  | zero =>
    intro f' buffer offset remaining hf hf'
    have hr : ¬(0 : Int) < remaining := by omega
    cases f' with
    | zero => rfl
    | succ k => simp only [readSerialTypesF, if_neg hr]
  | succ m ih =>
    intro f' buffer offset remaining hf hf'
    by_cases hr : (0 : Int) < remaining
    · cases f' with
      | zero => omega
      | succ k =>
        simp only [readSerialTypesF, if_pos hr]
        have hn := readVarint_nextOffset_pos (buffer.drop offset)
        rw [ih k buffer (offset + (readVarint (buffer.drop offset)).2)
          (remaining - ((readVarint (buffer.drop offset)).2 : Int)) (by omega) (by omega)]
    · cases f' with
      | zero => simp only [readSerialTypesF, if_neg hr]
      | succ k => simp only [readSerialTypesF, if_neg hr]

theorem readSerialTypesF_stable (fuel : Nat) (buffer : List Nat) (offset : Nat)
    (remaining : Int) (h : remaining.toNat ≤ fuel) :
    readSerialTypesF fuel buffer offset remaining = readSerialTypes buffer offset remaining :=
  readSerialTypesF_congr fuel remaining.toNat buffer offset remaining h le_rfl

/-- When the value loop returns normally it yields exactly one decoded value
per serial type. -/
theorem readColumns_length (buffer : List Nat) (rowId : Int) (sts : List Int) :
    ∀ (offset : Nat) (out : List String),
    readColumns buffer rowId sts offset = some out → out.length = sts.length := by
  induction sts with
  | nil =>
    intro offset out h
    simp only [readColumns, Option.some.injEq] at h
    subst h
    rfl
  | cons st rest ih =>
    intro offset out h
    unfold readColumns at h
    rcases Option.bind_eq_some.mp h with ⟨v, hv, hmap⟩
    rcases Option.map_eq_some'.mp hmap with ⟨l, hl, hout⟩
    rw [← hout]
    simp only [List.length_cons]
    rw [ih (offset + (getSerialTypeSize st).toNat) l hl]

set_option maxRecDepth 40000 in
/-- Claim C1, counterexample: on the synthetic file whose header declares
page size 4096 and page count 1 and whose root leaf-table page holds two
single-TEXT-column cells `"t1"` / `"t2"`, `parse()` does NOT return the
claimed `tableNames = ["t1", "t2"]`. -/
theorem parse_synthetic_single_column_ne_spec :
    parse syntheticDatabaseFile ≠
      some { pageSize := 4096, pageCount := 1, numberOfTables := 2,
             tableNames := [some "t1", some "t2"] } := by
  decide

set_option maxRecDepth 40000 in
/-- Claim C1 (corrected): on that synthetic file `parse()` returns
`pageSize 4096`, `pageCount 1`, `numberOfTables 2`, but the table-name list
is `[undefined, undefined]`: `getTableNames` extracts record column index 2
(`PageCellData.schemaTableName`, the `sqlite_schema` `tbl_name` slot), and a
single-column record has no index 2. -/
theorem parse_synthetic_single_column :
    parse syntheticDatabaseFile =
      some { pageSize := 4096, pageCount := 1, numberOfTables := 2,
             tableNames := [none, none] } := by
  decide

/-- Claim C2, counterexample: encoding 128 in the canonical SQLite grouping
(most significant 7-bit group first) gives `[0x81, 0x00]`, which `readVarint`
decodes to value 1, not 128 — the decoder accumulates the LEAST significant
group first, so the canonical-encode/decode round trip fails inside
`[0, 2^28)`. -/
theorem readVarint_canonical_encode_fails :
    (128 : Nat) < 2 ^ 28 ∧
    encodeVarintCanonical 128 = [129, 0] ∧
    readVarint (encodeVarintCanonical 128) = ((1 : Int), 2) ∧
    readVarint (encodeVarintCanonical 128) ≠
      ((128 : Int), (encodeVarintCanonical 128).length) := by
  decide

/-- Claim C2 (corrected): for every value in `[0, 2^28)`, encoding with the
LEAST-significant-group-first 7-bits-per-byte grouping (the byte order
`readVarint` actually accumulates) and decoding with `readVarint` returns
the original value and a consumed-byte count equal to the encoding's
length. -/
theorem readVarint_lsb_first_roundtrip (v : Nat) (h : v < 2 ^ 28) :
    readVarint (encodeVarintLE v) = ((v : Int), (encodeVarintLE v).length) := by
  unfold readVarint encodeVarintLE
  have hgo := readVarintGo_encodeLE v v 0 0 le_rfl (by norm_num)
    (by simpa using h) (by norm_num)
  simp only [Nat.mul_zero, pow_zero, Nat.mul_one, Nat.zero_add] at hgo
  rw [hgo]
  simp only [toInt32]
  rw [Nat.mod_eq_of_lt (lt_trans h (by norm_num))]
  rw [if_pos (lt_trans h (by norm_num))]

theorem readVarint_lsb_first_roundtrip_witness :
    readVarint (encodeVarintLE 1000000) = ((1000000 : Int), 3) := by
  rw [readVarint_lsb_first_roundtrip 1000000 (by norm_num)]
  decide

/-- Claim C3 (code bug): for a page whose page-type byte is 10 (leaf-index)
`parsePageHeader` derives header size 12, not the 8 required by the SQLite
format, because the source compares the signed byte at offset 8 — not the
page-type byte at offset 0 — against 10
(`pageHeaderData.getInt8(8) === B_TREE_PAGE_TYPE["leaf index b-tree page"]`). -/
theorem parsePageHeader_leaf_index_header_size_twelve :
    (parsePageHeader [10, 0, 0, 0, 2, 0, 0, 0, 0, 0, 0, 0] 0).bTreePageType = 10 ∧
    (parsePageHeader [10, 0, 0, 0, 2, 0, 0, 0, 0, 0, 0, 0] 0).headerSize = 12 := by
  decide

/-- Claim C4, counterexample: on nine bytes whose first eight all have the
high bit set, `readVarint` reports a consumed count of 9 but never reads the
ninth byte — the result is identical whether that byte is `0xFF` or `0x00`,
and the decoded value is 0, so the ninth byte contributes none of its bits
(the loop guard is `index < 8`). -/
theorem readVarint_ignores_ninth_byte :
    readVarint [128, 128, 128, 128, 128, 128, 128, 128, 255] = ((0 : Int), 9) ∧
    readVarint [128, 128, 128, 128, 128, 128, 128, 128, 255] =
      readVarint [128, 128, 128, 128, 128, 128, 128, 128, 0] := by
  decide

/-- Claim C4 (corrected): `readVarint` examines at most the first 8 bytes of
its input — any two buffers agreeing on their first 8 bytes decode
identically — and the reported consumed-byte count never exceeds 9 (9 is
reported exactly when the first eight bytes all have their high bit set,
with each of those bytes contributing only its low 7 bits). -/
theorem readVarint_reads_at_most_eight_bytes :
    (∀ l l' : List Nat, l.take 8 = l'.take 8 → readVarint l = readVarint l') ∧
    ∀ l : List Nat, (readVarint l).2 ≤ 9 :=
  ⟨readVarint_take_eight, readVarint_nextOffset_le_nine⟩

theorem readVarint_reads_at_most_eight_bytes_witness :
    readVarint [128, 128, 128, 128, 128, 128, 128, 128, 99]
      = readVarint [128, 128, 128, 128, 128, 128, 128, 128, 42] ∧
    (readVarint [128, 128, 128, 128, 128, 128, 128, 128, 99]).2 ≤ 9 :=
  ⟨readVarint_reads_at_most_eight_bytes.1 _ _ (by decide),
   readVarint_reads_at_most_eight_bytes.2 _⟩

/-- Claim C5, counterexample: on an empty input slice `readVarint` does not
fail — there is no `DecodeError` anywhere in the source — it returns value 0
with a consumed-byte count of 1 (the loop body never runs and the function
returns `index + 1`). -/
theorem readVarint_empty_returns : readVarint [] = ((0 : Int), 1) := by
  decide

/-- Claim C5 (corrected): `readVarint` never fails on any input slice; the
empty slice yields value 0 and consumed count 1, and every slice yields a
value and a consumed count between 1 and `length + 1`. -/
theorem readVarint_never_fails :
    readVarint [] = ((0 : Int), 1) ∧
    ∀ l : List Nat, 1 ≤ (readVarint l).2 ∧ (readVarint l).2 ≤ l.length + 1 :=
  ⟨by decide, fun l => ⟨readVarint_nextOffset_pos l, readVarint_nextOffset_le_len l⟩⟩

/-- Claim C6 (confirmed): the serial-type size function realises exactly the
spec's table — codes 1 through 9 give 1, 2, 3, 4, 6, 8, 8, 0, 0; code 0
gives 0; every even code at least 12 gives `(code - 12) / 2`; every odd code
at least 13 gives `(code - 13) / 2`. -/
theorem getSerialTypeSize_spec_table :
    (∀ s : Int, 12 ≤ s → s % 2 = 0 → getSerialTypeSize s = (s - 12) / 2) ∧
    (∀ s : Int, 13 ≤ s → s % 2 = 1 → getSerialTypeSize s = (s - 13) / 2) ∧
    getSerialTypeSize 0 = 0 ∧ getSerialTypeSize 1 = 1 ∧ getSerialTypeSize 2 = 2 ∧
    getSerialTypeSize 3 = 3 ∧ getSerialTypeSize 4 = 4 ∧ getSerialTypeSize 5 = 6 ∧
    getSerialTypeSize 6 = 8 ∧ getSerialTypeSize 7 = 8 ∧ getSerialTypeSize 8 = 0 ∧
    getSerialTypeSize 9 = 0 :=
  ⟨fun s h12 he => getSerialTypeSize_even s h12 he,
   fun s h13 ho => getSerialTypeSize_odd s h13 ho,
   by decide⟩

theorem getSerialTypeSize_spec_table_witness :
    getSerialTypeSize 100 = (100 - 12) / 2 ∧ getSerialTypeSize 15 = (15 - 13) / 2 :=
  ⟨getSerialTypeSize_spec_table.1 100 (by norm_num) (by norm_num),
   getSerialTypeSize_spec_table.2.1 15 (by norm_num) (by norm_num)⟩

/-- Claim C7 (code bug): when the two-byte cell-content-area field at offset
5 of the page header is literally 0, `parsePageHeader` reports 0, not the
65536 that the SQLite format (and the source's own field comment, "A zero
value for this integer is interpreted as 65536") requires — the source
stores `getUint16(5)` with no reinterpretation. -/
theorem parsePageHeader_zero_content_area_not_reinterpreted :
    (parsePageHeader [13, 0, 0, 0, 1, 0, 0, 0, 0, 0, 0, 0] 0).startOfCellContentArea = 0 := by
  decide

/-- Claim C8, counterexample: given a 1-byte file, file-header parsing does
not fail — `getBufferFromOffset` zero-fills the 100-byte buffer and the
parser returns a populated header whose absent fields are all zero (page
size 0, page count 0, a full 16-character header string). -/
theorem parseDatabaseFileHeader_short_input_returns :
    (parseDatabaseFileHeader [83]).databasePageSize = 0 ∧
    (parseDatabaseFileHeader [83]).numberOfPages = 0 ∧
    (parseDatabaseFileHeader [83]).headerString.length = 16 := by
  decide

/-- Claim C8 (corrected): a file providing fewer than 100 header bytes never
fails with any error; the missing bytes read as zero, so the parse result is
exactly the parse of the zero-padded 100-byte extension (fields drawn wholly
from missing bytes are zero-filled). -/
theorem parseDatabaseFileHeader_zero_pads (file : List Nat) (h : file.length < 100) :
    parseDatabaseFileHeader file =
      parseDatabaseFileHeader (file ++ List.replicate (100 - file.length) 0) := by
  unfold parseDatabaseFileHeader
  have hbuf : getBufferFromOffset file 100 0 =
      getBufferFromOffset (file ++ List.replicate (100 - file.length) 0) 100 0 := by
    unfold getBufferFromOffset
    simp only [List.drop_zero]
    rw [List.take_of_length_le (by omega : file.length ≤ 100),
      List.take_of_length_le (by simp; omega)]
    simp
    omega
  rw [hbuf]

theorem parseDatabaseFileHeader_zero_pads_witness :
    parseDatabaseFileHeader [83] =
      parseDatabaseFileHeader ([83] ++ List.replicate (100 - [83].length) 0) :=
  parseDatabaseFileHeader_zero_pads [83] (by decide)

set_option maxRecDepth 40000 in
/-- Claim C9, counterexample: on the synthetic file whose only cell pointer
is 1000 while the page buffer is 512 bytes long, `parse()` does not fail
with any error — `subarray(1000)` is empty, the cell decodes to an empty
record, and the table-name list silently carries `undefined` for that
cell. -/
theorem parse_out_of_bounds_pointer_returns :
    parse outOfBoundsPointerFile =
      some { pageSize := 512, pageCount := 1, numberOfTables := 1,
             tableNames := [none] } := by
  decide

/-- Claim C9 (corrected): a cell-pointer value at or beyond the page
buffer's length never raises an error; the resulting subarray is empty, the
decoded record has no columns, and the table-name entry for that cell is
JavaScript `undefined` (`none`) — the list is degraded, not truncated by an
`OutOfBoundsError`. -/
theorem table_name_out_of_bounds_pointer_undefined (pageBuffer : List Nat)
    (cellPointer : Nat) (h : pageBuffer.length ≤ cellPointer) :
    (parseTableLeafCell (pageBuffer.drop cellPointer)).map
      (fun r => r.get? schemaTableName) = some none := by
  rw [List.drop_eq_nil_of_le h]
  decide

theorem table_name_out_of_bounds_pointer_undefined_witness :
    (parseTableLeafCell ([1, 2, 3].drop 7)).map
      (fun r => r.get? schemaTableName) = some none :=
  table_name_out_of_bounds_pointer_undefined [1, 2, 3] 7 (by decide)

/-- Claim C10 (confirmed): `parseCellPayload` terminates on every buffer and
offset.  Every `readVarint` call consumes at least one byte, so the
header-region loop's remaining-byte budget strictly decreases: any iteration
budget of at least `remaining.toNat` steps computes the loop's unique fixed
result, and the value loop produces exactly one decoded value per collected
serial type. -/
theorem parseCellPayload_loops_terminate :
    (∀ l : List Nat, 1 ≤ (readVarint l).2) ∧
    (∀ (fuel : Nat) (buffer : List Nat) (offset : Nat) (remaining : Int),
      remaining.toNat ≤ fuel →
      readSerialTypesF fuel buffer offset remaining = readSerialTypes buffer offset remaining) ∧
    (∀ (buffer : List Nat) (rowId : Int) (sts : List Int) (offset : Nat)
      (out : List String),
      readColumns buffer rowId sts offset = some out → out.length = sts.length) :=
  ⟨readVarint_nextOffset_pos, readSerialTypesF_stable,
   fun buffer rowId sts offset out h => readColumns_length buffer rowId sts offset out h⟩

theorem parseCellPayload_loops_terminate_witness :
    readSerialTypesF 9 [1, 0] 1 1 = readSerialTypes [1, 0] 1 1 ∧
    (["1"] : List String).length = [(1 : Int)].length :=
  ⟨parseCellPayload_loops_terminate.2.1 9 [1, 0] 1 1 (by decide),
   parseCellPayload_loops_terminate.2.2 [1] 5 [1] 0 ["1"] (by decide)⟩

end SqliteTs
